import Mathlib

set_option maxRecDepth 100000

/-!
Verification development for the daily Japanese-equity "distortion / volatility-burst"
risk engine (src/main.py).  The pure decision core of the script is embedded
shallowly: machine floats are modelled by exact rationals, Python date objects by a
year/month/day structure with proleptic-Gregorian day counts, fallible computations
by Option, and the raising float() conversion by Except.  Definitions follow the
source functions; names match the source where Lean's lexer allows it.
-/

namespace ArbJP

/-! ## Configuration constants (src/main.py lines 31-86) -/

def STATE_MAX_RECORDS : ℕ := 1400

def SQ_NEAR_DAYS : ℤ := 5

def MAJOR_SQ_MONTHS : List ℕ := [3, 6, 9, 12]

def ARB_DELTA_SHORT : ℕ := 3

def ARB_DELTA_MAIN : ℕ := 5

def ARB_DELTA_LONG : ℕ := 25

def VOL_MA_DAYS : ℕ := 20

def VOL_RATIO_THIN : ℚ := 0.85

def P_MOVE_TH : ℚ := 1.0

def P_SPIKE_TH : ℚ := 2.0

/-- Source constant ARB_MARGIN_5_RATIO (renamed: the numeric suffix is moved last). -/
def ARB_MARGIN_RATIO_5 : ℚ := 0.005

/-- Source constant ARB_MARGIN_25_RATIO. -/
def ARB_MARGIN_RATIO_25 : ℚ := 0.010

/-- Source constant ARB_FLOOR_5_MED_RATIO. -/
def ARB_FLOOR_MED_RATIO_5 : ℚ := 0.001

/-- Source constant ARB_FLOOR_25_MED_RATIO. -/
def ARB_FLOOR_MED_RATIO_25 : ℚ := 0.002

def ARB_PCTL_YEAR_POINTS : ℕ := 245

def ARB_PCTL_HALF_POINTS : ℕ := 126

def ARB_HIGH_PCTL : ℚ := 0.80

def EMERGENCY_FIXED_TH : ℚ := 3.0

/-! ## Calendar (Python datetime.date, proleptic Gregorian) -/

/-- Calendar date, mirroring Python datetime.date fields. -/
structure Date where
  year : ℕ
  month : ℕ
  day : ℕ
deriving DecidableEq

/-- Validity of a Python datetime.date (those are valid by construction). -/
def isLeap (y : ℕ) : Bool := (y % 4 = 0 && y % 100 ≠ 0) || y % 400 = 0

def daysInMonth (y m : ℕ) : ℕ :=
  match m with
  | 2 => if isLeap y then 29 else 28
  | 4 => 30
  | 6 => 30
  | 9 => 30
  | 11 => 30
  | _ => 31

/-- Days in year y strictly before month m. -/
def daysBeforeMonth (y m : ℕ) : ℕ :=
  let L : ℕ := if isLeap y then 1 else 0
  match m with
  | 1 => 0
  | 2 => 31
  | 3 => 59 + L
  | 4 => 90 + L
  | 5 => 120 + L
  | 6 => 151 + L
  | 7 => 181 + L
  | 8 => 212 + L
  | 9 => 243 + L
  | 10 => 273 + L
  | 11 => 304 + L
  | _ => 334 + L

/-- Rata-die ordinal of a date (0001-01-01 has ordinal 1), i.e. Python
date.toordinal(); date subtraction and comparison go through it. -/
def rd (d : Date) : ℤ :=
  let y1 : ℕ := d.year - 1
  365 * (y1 : ℤ) + (y1 / 4 : ℕ) - (y1 / 100 : ℕ) + (y1 / 400 : ℕ)
    + (daysBeforeMonth d.year d.month : ℤ) + (d.day : ℤ)

def Date.Valid (d : Date) : Prop :=
  1 ≤ d.year ∧ 1 ≤ d.month ∧ d.month ≤ 12 ∧ 1 ≤ d.day ∧ d.day ≤ daysInMonth d.year d.month

instance (d : Date) : Decidable d.Valid := by
  unfold Date.Valid; infer_instance

/-- Python date.weekday(): Monday equals 0.  0001-01-01 is a Monday. -/
def weekday (d : Date) : ℕ := ((rd d - 1) % 7).toNat

/-- Inner helper get_sq_date of get_days_to_sq (src/main.py lines 134-137):
the second Friday of the given month.  Python computes
first + timedelta(days_to_first_fri + 7); the result stays inside the month,
so only the day component moves. -/
def get_sq_date (year month : ℕ) : Date :=
  let days_to_first_fri := (11 - weekday ⟨year, month, 1⟩) % 7
  ⟨year, month, 1 + days_to_first_fri + 7⟩

/-- The settlement (SQ) day used by get_days_to_sq: the second Friday of the
current month if not yet passed, else of the following month. -/
def settlement_date (base_date : Date) : Date :=
  let sq := get_sq_date base_date.year base_date.month
  if rd sq < rd base_date then
    if base_date.month = 12 then get_sq_date (base_date.year + 1) 1
    else get_sq_date base_date.year (base_date.month + 1)
  else sq

/-- Source function get_days_to_sq (src/main.py lines 130-145). -/
def get_days_to_sq (base_date : Date) : ℤ := rd (settlement_date base_date) - rd base_date

/-- Source function is_major_sq_month (src/main.py lines 148-149): it tests the
month of the argument date itself. -/
def is_major_sq_month (d : Date) : Bool := d.month ∈ MAJOR_SQ_MONTHS

/-! ## History store (state.json; src/main.py lines 485-516) -/

/-- One record of state.json's history list; the script only ever writes the
keys date and prime_volume. -/
structure VolRec where
  date : Date
  prime_volume : Option ℚ
deriving DecidableEq

/-- Ordering of records by ISO date string, as used by hist.sort(key=date);
for valid dates the ISO string order is the lexicographic field order. -/
def dateLe (a b : Date) : Prop :=
  a.year < b.year ∨ (a.year = b.year ∧ (a.month < b.month ∨ (a.month = b.month ∧ a.day ≤ b.day)))

instance : DecidableRel dateLe := fun a b => by
  unfold dateLe; infer_instance

def recLe (a b : VolRec) : Prop := dateLe a.date b.date

instance : DecidableRel recLe := fun a b => by
  unfold recLe; infer_instance

instance : IsTotal VolRec recLe :=
  ⟨fun a b => by unfold recLe dateLe; omega⟩

instance : IsTrans VolRec recLe :=
  ⟨fun a b c => by unfold recLe dateLe; omega⟩

/-- The for-loop of update_volume_history: find the first record of the given
date; none if absent, otherwise the rewritten list and the changed flag. -/
def upd_loop (ds : Date) (vol : ℚ) : List VolRec → Option (List VolRec × Bool)
  | [] => none
  | r :: rs =>
    if r.date = ds then
      if r.prime_volume = some vol then some (r :: rs, false)
      else some (({ date := r.date, prime_volume := some vol } : VolRec) :: rs, true)
    else
      match upd_loop ds vol rs with
      | some (rs2, c) => some (r :: rs2, c)
      | none => none

/-- Source function update_volume_history (src/main.py lines 485-503): upsert
today's prime volume, sort by date, trim to STATE_MAX_RECORDS newest records.
Returns the new history and whether the stored content changed. -/
def update_volume_history (hist : List VolRec) (dt : Date) (vol : ℚ) : List VolRec × Bool :=
  match upd_loop dt vol hist with
  | some res => res
  | none =>
    let h2 := (hist ++ [({ date := dt, prime_volume := some vol } : VolRec)]).insertionSort recLe
    if STATE_MAX_RECORDS < h2.length then (h2.drop (h2.length - STATE_MAX_RECORDS), true)
    else (h2, true)

/-- Source function get_volume_ma (src/main.py lines 506-516): mean of the most
recent window positive volumes; None when fewer qualify. -/
def get_volume_ma (hist : List VolRec) (window : ℕ) : Option ℚ :=
  let vols := (hist.filterMap (fun r => r.prime_volume)).filter (fun v => 0 < v)
  if vols.length < window then none
  else
    let recent := vols.drop (vols.length - window)
    some (recent.sum / (recent.length : ℚ))

/-! ## Arbitrage statistics (src/main.py lines 184-229) -/

/-- Source helper named _arb_window in src/main.py lines 184-191 (leading
underscore dropped): the trailing 245-point window, falling back to 126 points,
else none. -/
def arb_window (net_hist : List ℚ) : Option (List ℚ) :=
  if net_hist = [] then none
  else if ARB_PCTL_YEAR_POINTS ≤ net_hist.length then
    some (net_hist.drop (net_hist.length - ARB_PCTL_YEAR_POINTS))
  else if ARB_PCTL_HALF_POINTS ≤ net_hist.length then
    some (net_hist.drop (net_hist.length - ARB_PCTL_HALF_POINTS))
  else none

/-- Median of a list, as pandas Series.median(): sort ascending, take the middle
element, or the mean of the two middle elements for an even count. -/
def median (l : List ℚ) : ℚ :=
  let s := l.insertionSort (· ≤ ·)
  let n := s.length
  if n % 2 = 1 then s.getD (n / 2) 0
  else (s.getD (n / 2 - 1) 0 + s.getD (n / 2) 0) / 2

structure ArbStats where
  pctl : ℚ
  arb_high : Bool
  med_abs : ℚ
  floor_5 : ℚ
  floor_25 : ℚ
  margin_5 : ℚ
  margin_25 : ℚ
  window_n : ℕ
deriving DecidableEq

/-- Source function compute_arb_stats (src/main.py lines 194-229).  pctl is the
fraction of windowed values strictly below the latest value; margins combine a
ratio of the latest balance with a floor from the median absolute value. -/
def compute_arb_stats (net_hist : List ℚ) (arb_net_latest : ℚ) : Option ArbStats :=
  match arb_window net_hist with
  | none => none
  | some w =>
    if w = [] then none
    else
      let latest := arb_net_latest
      let pctl : ℚ := ((w.filter (fun x => x < latest)).length : ℚ) / (w.length : ℚ)
      let med_abs := median (w.map (fun x => |x|))
      let floor_5 := med_abs * ARB_FLOOR_MED_RATIO_5
      let floor_25 := med_abs * ARB_FLOOR_MED_RATIO_25
      let base := |latest|
      let margin_5 := max (base * ARB_MARGIN_RATIO_5) floor_5
      let margin_25 := max (base * ARB_MARGIN_RATIO_25) floor_25
      some {
        pctl := pctl
        arb_high := decide (ARB_HIGH_PCTL ≤ pctl)
        med_abs := med_abs
        floor_5 := floor_5
        floor_25 := floor_25
        margin_5 := margin_5
        margin_25 := margin_25
        window_n := w.length }

/-- Source function calc_delta (src/main.py lines 523-527): difference between
the last value and the value lag entries earlier; None when the history is
shorter than lag+1. -/
def calc_delta (net_hist : List ℚ) (lag : ℕ) : Option ℚ :=
  if net_hist.length < lag + 1 then none
  else some (net_hist.getD (net_hist.length - 1) 0 - net_hist.getD (net_hist.length - (lag + 1)) 0)

/-! ## Number parsing (src/main.py lines 99-127) -/

/-- Unit characters recognised by parse_jp_num with their multipliers. -/
def unitOf (c : Char) : Option ℚ :=
  if c = '兆' then some (10 ^ 12)
  else if c = '億' then some (10 ^ 8)
  else if c = '万' then some (10 ^ 4)
  else none

def digitsToNat (cs : List Char) : ℕ :=
  cs.foldl (fun acc c => acc * 10 + (c.toNat - 48)) 0

/-- Python float() restricted to the strings parse_jp_num feeds it (digits and
dots); none models the ValueError raise. -/
def parseFloat (cs : List Char) : Option ℚ :=
  if cs.all (fun c => c.isDigit || c = '.') && cs.count '.' ≤ 1 && cs.any (fun c => c.isDigit) then
    let intPart := cs.takeWhile (fun c => c ≠ '.')
    let fracPart := (cs.dropWhile (fun c => c ≠ '.')).drop 1
    some ((digitsToNat intPart : ℚ) + (digitsToNat fracPart : ℚ) / 10 ^ fracPart.length)
  else none

/-- The character loop of parse_jp_num: accumulate digit runs, flush them on a
unit character, ignore everything else; the trailing run is added bare. -/
def jpLoop : List Char → ℚ → List Char → Except Unit ℚ
  | [], total, current =>
    if current = [] then Except.ok total
    else
      match parseFloat current with
      | none => Except.error ()
      | some v => Except.ok (total + v)
  | c :: cs, total, current =>
    if c.isDigit || c = '.' then jpLoop cs total (current ++ [c])
    else
      match unitOf c with
      | some u =>
        if current = [] then jpLoop cs total []
        else
          match parseFloat current with
          | none => Except.error ()
          | some v => jpLoop cs (total + v * u) []
      | none => jpLoop cs total current

/-- Python str.strip() after the comma removal. -/
def pyStrip (cs : List Char) : List Char :=
  ((cs.dropWhile Char.isWhitespace).reverse.dropWhile Char.isWhitespace).reverse

/-- Source function parse_jp_num (src/main.py lines 99-127).  The outer Option
is the argument (None allowed); Except.error models an uncaught ValueError,
Except.ok none the documented invalid placeholders. -/
def parse_jp_num (s : Option String) : Except Unit (Option ℚ) :=
  match s with
  | none => Except.ok none
  | some str =>
    let cs := pyStrip (str.data.filter (fun c => c ≠ ','))
    if cs = [] || cs = ['-'] || cs = ['-', '-'] then Except.ok none
    else
      match jpLoop cs 0 [] with
      | Except.error e => Except.error e
      | Except.ok total => Except.ok (some total)

/-! ## The decision core of main() (src/main.py lines 530-752)

main() first short-circuits on closed market days and missing source URLs,
then fetches all external observations.  Everything after the fetches is a
pure function of the fetched values, today's date and the loaded state; that
function is embedded here.  -/

inductive Level where
  | INSUFFICIENT
  | NORMAL
  | CAUTION
  | WARNING
deriving DecidableEq

/-- Result of compute_topix_position() as consumed by main(): none when the
dict has ok False. -/
structure TopixPos where
  idx_high_topix : Bool
  idx_low_topix : Bool
deriving DecidableEq

/-- Result of compute_basis_stuck_nk() as consumed by main(): none when ok is
False. -/
structure BasisInfo where
  stuck : Bool
  basis_stress_down : Bool
deriving DecidableEq

/-- The fetched observations main() works from: SRC_A arbitrage data, SRC_B
prime volume, yfinance-derived metrics, and today's date. -/
structure Inputs where
  today : Date
  arb_date : Option Date
  arb_buy : Option ℚ
  arb_sell : Option ℚ
  arb_net_hist : List ℚ
  vol_date : Option Date
  prime_vol : Option ℚ
  topix_pos : Option TopixPos
  move_pct : Option ℚ
  basis_info : Option BasisInfo
  q99_move : Option ℚ
deriving DecidableEq

/-- main() line 554: report_dt is arb_date, else vol_date, else today. -/
def report_dt (I : Inputs) : Date := I.arb_date.getD (I.vol_date.getD I.today)

/-- main() lines 557-561: upsert today's prime volume when present and
positive; returns the history to use and the state_updated flag. -/
def state_after (state : List VolRec) (I : Inputs) : List VolRec × Bool :=
  match I.vol_date, I.prime_vol with
  | some vd, some pv => if 0 < pv then update_volume_history state vd pv else (state, false)
  | _, _ => (state, false)

/-- Everything main() prints or persists about one evaluation, with the
intermediate condition booleans exposed. -/
structure EvalResult where
  level : Level
  history : List VolRec
  state_updated : Bool
  report_date : Date
  d2sq : ℤ
  major_sq_near : Bool
  arb_stuck_weak : Bool
  arb_stuck_strong : Bool
  liq_mismatch : Bool
  idx_high_topix : Bool
  basis_stress_down : Bool
  emergency_move : Bool
  warning_pre : Bool
  caution_pre : Bool
  sq_boosted : Bool
  warning : Bool
  caution : Bool
  d3 : Option ℚ
  d5 : Option ℚ
  d25 : Option ℚ
  vol_ma : Option ℚ
  ratio_vol : Option ℚ
deriving DecidableEq

/-- The LEVEL 0 outcome: the run stops, no risk level is assigned, no
condition is evaluated. -/
def insufficient_result (hist : List VolRec) (updated : Bool) (rdt : Date) : EvalResult where
  level := Level.INSUFFICIENT
  history := hist
  state_updated := updated
  report_date := rdt
  d2sq := 0
  major_sq_near := false
  arb_stuck_weak := false
  arb_stuck_strong := false
  liq_mismatch := false
  idx_high_topix := false
  basis_stress_down := false
  emergency_move := false
  warning_pre := false
  caution_pre := false
  sq_boosted := false
  warning := false
  caution := false
  d3 := none
  d5 := none
  d25 := none
  vol_ma := none
  ratio_vol := none

/-- The first sufficiency gate of main() (lines 563-591): true when the list
of insufficiency reasons would be nonempty, i.e. when the latest buy/sell, the
5-lag delta, a positive turnover, the 20-day volume average, the price move or
the q99 emergency threshold is unavailable. -/
def insufficient1 (I : Inputs) (d5o vol_ma_o : Option ℚ) : Bool :=
  I.arb_buy.isNone || I.arb_sell.isNone || d5o.isNone
    || (match I.prime_vol with
        | none => true
        | some pv => decide (pv ≤ 0))
    || vol_ma_o.isNone || I.move_pct.isNone || I.q99_move.isNone

/-- Outcome of the boolean classification steps of main() (lines 662-698). -/
structure Classification where
  level : Level
  warning_pre : Bool
  caution_pre : Bool
  sq_boosted : Bool
  warning : Bool
  caution : Bool
deriving DecidableEq

/-- The classification of main() lines 662-698: the WARNING and CAUTION rules
followed by the SQ boost, as a function of the seven condition booleans. -/
def classify (arb_stuck_weak arb_stuck_strong liq_mismatch idx_high_topix
    basis_stress_down emergency_move major_sq_near : Bool) : Classification :=
  let warning_pre :=
    (arb_stuck_strong && liq_mismatch && (idx_high_topix || basis_stress_down))
      || (arb_stuck_weak && liq_mismatch && emergency_move)
  let caution_pre :=
    !warning_pre && (arb_stuck_weak || arb_stuck_strong) && liq_mismatch
      && (major_sq_near || idx_high_topix || basis_stress_down || emergency_move)
  let sq_boosted := caution_pre && major_sq_near
  let warning := warning_pre || sq_boosted
  let caution := caution_pre && !sq_boosted
  { level :=
      if warning then Level.WARNING
      else if caution then Level.CAUTION
      else Level.NORMAL
    warning_pre := warning_pre
    caution_pre := caution_pre
    sq_boosted := sq_boosted
    warning := warning
    caution := caution }

/-- The condition computations and the final classification of main() after
both sufficiency gates passed (lines 619-698). -/
def successResult (st1 : List VolRec) (state_updated : Bool) (rdt : Date)
    (d3o : Option ℚ) (d5 d25 prime_vol vol_ma move_pct q99 : ℚ) (arb_stats : ArbStats)
    (topix_pos : Option TopixPos) (basis_info : Option BasisInfo) : EvalResult :=
  let margin_5 := arb_stats.margin_5
  let margin_25 := arb_stats.margin_25
  let arb_high := arb_stats.arb_high
  let arb_stuck_weak := decide (-margin_5 ≤ d5)
  let arb_stuck_strong := arb_stuck_weak && decide (-margin_25 ≤ d25) && arb_high
  let d2sq := get_days_to_sq rdt
  let major_sq_near := decide (d2sq ≤ SQ_NEAR_DAYS) && is_major_sq_month rdt
  let ratio_vol := prime_vol / vol_ma
  let px_move_abs := |move_pct|
  let liq_mismatch :=
    (decide (ratio_vol ≤ VOL_RATIO_THIN) && decide (P_MOVE_TH ≤ px_move_abs))
      || (decide (VOL_RATIO_THIN < ratio_vol) && decide (P_SPIKE_TH ≤ px_move_abs))
  let idx_high_topix :=
    match topix_pos with
    | some t => t.idx_high_topix
    | none => false
  let basis_stress_down :=
    match basis_info with
    | some b => b.basis_stress_down
    | none => false
  let em_th := max EMERGENCY_FIXED_TH q99
  let emergency_move := decide (em_th ≤ px_move_abs)
  let cls := classify arb_stuck_weak arb_stuck_strong liq_mismatch idx_high_topix
    basis_stress_down emergency_move major_sq_near
  { level := cls.level
    history := st1
    state_updated := state_updated
    report_date := rdt
    d2sq := d2sq
    major_sq_near := major_sq_near
    arb_stuck_weak := arb_stuck_weak
    arb_stuck_strong := arb_stuck_strong
    liq_mismatch := liq_mismatch
    idx_high_topix := idx_high_topix
    basis_stress_down := basis_stress_down
    emergency_move := emergency_move
    warning_pre := cls.warning_pre
    caution_pre := cls.caution_pre
    sq_boosted := cls.sq_boosted
    warning := cls.warning
    caution := cls.caution
    d3 := d3o
    d5 := some d5
    d25 := some d25
    vol_ma := some vol_ma
    ratio_vol := some ratio_vol }

/-- The pure decision core of main() given the fetched inputs: the sufficiency
gates (lines 563-617) and the classification (lines 619-698).  The getD
defaults are never exposed: both gates have passed when they are read. -/
def evaluate (state : List VolRec) (I : Inputs) : EvalResult :=
  let stp := state_after state I
  let st1 := stp.1
  let state_updated := stp.2
  let rdt := report_dt I
  let d5o := calc_delta I.arb_net_hist ARB_DELTA_MAIN
  let vol_ma_o := get_volume_ma st1 VOL_MA_DAYS
  if insufficient1 I d5o vol_ma_o then insufficient_result st1 state_updated rdt
  else
    let d3o := calc_delta I.arb_net_hist ARB_DELTA_SHORT
    let d25o := calc_delta I.arb_net_hist ARB_DELTA_LONG
    let arb_net_latest := I.arb_buy.getD 0 - I.arb_sell.getD 0
    let arb_statsO := compute_arb_stats I.arb_net_hist arb_net_latest
    if arb_statsO.isNone || d25o.isNone then insufficient_result st1 state_updated rdt
    else
      successResult st1 state_updated rdt d3o (d5o.getD 0) (d25o.getD 0) (I.prime_vol.getD 0)
        (vol_ma_o.getD 0) (I.move_pct.getD 0) (I.q99_move.getD 0)
        (arb_statsO.getD ⟨0, false, 0, 0, 0, 0, 0, 0⟩) I.topix_pos I.basis_info

/-! ## The general upsert of spec section 4.2

src/main.py persists only the prime_volume field: its store has no operation
that upserts an arbitrage buy/sell record, so the field-merging upsert that
section 4.2 describes is not in src/.  It is modelled here from the spec for
claim C5. -/

namespace SpecStore

/-- HistoryRecord of spec section 3 (source metadata omitted: it never affects
logic); arb_net is derived, never stored. -/
structure HRecord where
  date : Date
  arb_buy : Option ℚ
  arb_sell : Option ℚ
  prime_volume : Option ℚ
deriving DecidableEq

/-- Modelled from the spec: arb_net = arb_buy - arb_sell, derived and
recomputed on every upsert, never stored independently of buy/sell. -/
def HRecord.arb_net (r : HRecord) : Option ℚ :=
  match r.arb_buy, r.arb_sell with
  | some b, some s => some (b - s)
  | _, _ => none

/-- Modelled from the spec: merge non-null fields of the incoming record over
the existing one; never overwrite a known field with a null/missing value. -/
def mergeRecord (old incoming : HRecord) : HRecord where
  date := old.date
  arb_buy :=
    match incoming.arb_buy with
    | some b => some b
    | none => old.arb_buy
  arb_sell :=
    match incoming.arb_sell with
    | some s => some s
    | none => old.arb_sell
  prime_volume :=
    match incoming.prime_volume with
    | some v => some v
    | none => old.prime_volume

/-- Locate the record with the incoming date and merge into it; none if no
record carries that date. -/
def upsertLoop (r : HRecord) : List HRecord → Option (List HRecord)
  | [] => none
  | x :: xs =>
    if x.date = r.date then some (mergeRecord x r :: xs)
    else (upsertLoop r xs).map (fun ys => x :: ys)

/-- Modelled from the spec (section 4.2 upsert, absent from src/): locate the
existing entry by date; if absent, append; if present, merge; report whether
the stored content actually changed. -/
def upsert (hist : List HRecord) (r : HRecord) : List HRecord × Bool :=
  match upsertLoop r hist with
  | some h2 => (h2, decide (h2 ≠ hist))
  | none => (hist ++ [r], true)

end SpecStore

/-! ## Concrete scenarios used by witnesses and counterexamples -/

/-- Twenty stored volume records, one per day of February 2026, all with the
same volume V. -/
def histV (V : ℚ) : List VolRec :=
  (List.range 20).map (fun i => { date := ⟨2026, 2, i + 1⟩, prime_volume := some V })

/-- A flat arbitrage net-balance history of n zeros. -/
def flatHist (n : ℕ) : List ℚ := List.replicate n 0

/-- A fetched-input bundle: report date d, today's prime volume pv, n points of
flat arbitrage history, balanced latest buy/sell, a 1.5 percent price move, no
TOPIX or basis data, q99 threshold 2.5 percent. -/
def inputsAt (d : Date) (pv : ℚ) (n : ℕ) : Inputs where
  today := d
  arb_date := some d
  arb_buy := some 100
  arb_sell := some 100
  arb_net_hist := flatHist n
  vol_date := some d
  prime_vol := some pv
  topix_pos := none
  move_pct := some 1.5
  basis_info := none
  q99_move := some 2.5

/-! ## Calendar lemmas -/

lemma get_sq_date_month (y m : ℕ) : (get_sq_date y m).month = m := rfl

lemma get_sq_date_year (y m : ℕ) : (get_sq_date y m).year = y := rfl

lemma get_sq_date_day_ge (y m : ℕ) : 8 ≤ (get_sq_date y m).day := by
  show 8 ≤ 1 + (11 - weekday ⟨y, m, 1⟩) % 7 + 7
  omega

/-- Same-month rata-die differences reduce to day differences. -/
lemma rd_same_month (y m a b : ℕ) : rd ⟨y, m, a⟩ - rd ⟨y, m, b⟩ = (a : ℤ) - b := by
  unfold rd
  ring

/-- Crossing to the next month advances the ordinal by the length of the
current month. -/
lemma rd_next_month (y m k : ℕ) (h1 : 1 ≤ m) (h2 : m ≤ 11) :
    rd ⟨y, m + 1, k⟩ - rd ⟨y, m, 1⟩ = (daysInMonth y m : ℤ) + k - 1 := by
  interval_cases m <;>
    (unfold rd daysBeforeMonth daysInMonth
     cases hL : isLeap y <;> simp [hL] <;> ring_nf)

/-- Crossing from December to January advances the ordinal by 31. -/
lemma rd_jan (y k : ℕ) (hy : 1 ≤ y) :
    rd ⟨y + 1, 1, k⟩ - rd ⟨y, 12, 1⟩ = 31 + (k : ℤ) - 1 := by
  have hiff : isLeap y = true ↔ ((y % 4 = 0 ∧ ¬(y % 100 = 0)) ∨ y % 400 = 0) := by
    simp [isLeap]
  unfold rd daysBeforeMonth
  dsimp only
  cases hL : isLeap y
  · rw [hL] at hiff
    simp at hiff
    try norm_num
    omega
  · rw [hL] at hiff
    simp at hiff
    try norm_num
    omega

/-- When the settlement day is at most SQ_NEAR_DAYS away it falls in the base
date's own month: rolling to the next month always leaves at least 8 days. -/
lemma settlement_month_of_near (d : Date) (hv : d.Valid) (h : get_days_to_sq d ≤ SQ_NEAR_DAYS) :
    (settlement_date d).month = d.month := by
  obtain ⟨hy, hm1, hm2, hd1, hd2⟩ := hv
  unfold settlement_date
  by_cases hlt : rd (get_sq_date d.year d.month) < rd d
  · exfalso
    unfold get_days_to_sq settlement_date at h
    rw [if_pos hlt] at h
    by_cases h12 : d.month = 12
    · rw [if_pos h12] at h
      have e1 := rd_jan d.year (get_sq_date (d.year + 1) 1).day hy
      have e2 := rd_same_month d.year 12 1 d.day
      have e3 := get_sq_date_day_ge (d.year + 1) 1
      have hd31 : d.day ≤ 31 := by
        rw [h12] at hd2; simpa [daysInMonth] using hd2
      have hsq : get_sq_date (d.year + 1) 1
          = ⟨d.year + 1, 1, (get_sq_date (d.year + 1) 1).day⟩ := rfl
      rw [hsq] at h
      have hrd : rd ⟨d.year, 12, d.day⟩ = rd d := by rw [← h12]
      unfold SQ_NEAR_DAYS at h
      omega
    · rw [if_neg h12] at h
      have hm11 : d.month ≤ 11 := by omega
      have e1 := rd_next_month d.year d.month (get_sq_date d.year (d.month + 1)).day hm1 hm11
      have e2 := rd_same_month d.year d.month 1 d.day
      have e3 := get_sq_date_day_ge d.year (d.month + 1)
      have hsq : get_sq_date d.year (d.month + 1)
          = ⟨d.year, d.month + 1, (get_sq_date d.year (d.month + 1)).day⟩ := rfl
      rw [hsq] at h
      have hrd : rd ⟨d.year, d.month, d.day⟩ = rd d := rfl
      unfold SQ_NEAR_DAYS at h
      omega
  · rw [if_neg hlt]
    exact get_sq_date_month d.year d.month

/-! ## Claim C3 -/

/-- Claim C3 as frozen is false at 2026-03-20: that date lies after the second
Friday of March 2026 (March 13), so its settlement day is 2026-04-10 whose
month 4 is not major, yet is_major_sq_month returns true because it tests the
input date's own month. -/
theorem c3_counterexample :
    ¬ (is_major_sq_month ⟨2026, 3, 20⟩ = true
        ↔ (settlement_date ⟨2026, 3, 20⟩).month ∈ MAJOR_SQ_MONTHS) := by
  decide

/-- Claim C3, amended: is_major_sq_month tests the month of the input date
itself, not of its settlement day; the two tests agree whenever the settlement
day is at most 5 calendar days away, which is the only situation main() uses
the function in. -/
theorem c3_major_month_is_input_month :
    (∀ d : Date, is_major_sq_month d = true ↔ d.month ∈ MAJOR_SQ_MONTHS)
      ∧ (∀ d : Date, d.Valid → get_days_to_sq d ≤ SQ_NEAR_DAYS →
          (is_major_sq_month d = true ↔ (settlement_date d).month ∈ MAJOR_SQ_MONTHS)) := by
  constructor
  · intro d
    simp [is_major_sq_month]
  · intro d hv h
    rw [settlement_month_of_near d hv h]
    simp [is_major_sq_month]

/-- Witness for the amended C3 at 2026-03-10, three days before the March 2026
settlement day. -/
theorem c3_witness :
    is_major_sq_month ⟨2026, 3, 10⟩ = true
      ↔ (settlement_date ⟨2026, 3, 10⟩).month ∈ MAJOR_SQ_MONTHS :=
  c3_major_month_is_input_month.2 ⟨2026, 3, 10⟩ (by decide) (by decide)

/-! ## Claim C9: percentile monotonicity -/

/-- Claim C9: for a fixed arbitrage history, raising the latest value from a
to b with a strictly below b never decreases the percentile rank computed by
compute_arb_stats (the fraction of windowed values strictly below the latest
value). -/
theorem c9_percentile_monotone (net_hist : List ℚ) (a b : ℚ) (sa sb : ArbStats)
    (hab : a < b)
    (ha : compute_arb_stats net_hist a = some sa)
    (hb : compute_arb_stats net_hist b = some sb) :
    sa.pctl ≤ sb.pctl := by
  unfold compute_arb_stats at ha hb
  cases hw : arb_window net_hist with
  | none => rw [hw] at ha; exact absurd ha (by simp)
  | some w =>
    rw [hw] at ha hb
    dsimp only at ha hb
    by_cases hni : w = []
    · rw [if_pos hni] at ha; exact absurd ha (by simp)
    · rw [if_neg hni] at ha hb
      have ea := (Option.some.injEq _ _).mp ha
      have eb := (Option.some.injEq _ _).mp hb
      subst ea
      subst eb
      dsimp only
      have hcount : (w.filter (fun x => x < a)).length ≤ (w.filter (fun x => x < b)).length := by
        rw [← List.countP_eq_length_filter, ← List.countP_eq_length_filter]
        refine List.countP_mono_left (fun x _ hx => ?_)
        simp only [decide_eq_true_eq] at hx ⊢
        linarith
      have hn : (0 : ℚ) < (w.length : ℚ) := by
        have : 0 < w.length := List.length_pos.mpr hni
        exact_mod_cast this
      have hcast : ((w.filter (fun x => x < a)).length : ℚ)
          ≤ ((w.filter (fun x => x < b)).length : ℚ) := by exact_mod_cast hcount
      gcongr

/-- An ascending 126-point window used to instantiate C9. -/
def wHist : List ℚ := (List.range 126).map (fun i => (i : ℚ))

set_option maxRecDepth 8000 in
/-- Witness for C9 on the concrete window wHist with latest values 0 and 1:
the percentile rank rises from 0 to 1/126. -/
theorem c9_witness :
    (⟨0, false, 125 / 2, 1 / 16, 1 / 8, 1 / 16, 1 / 8, 126⟩ : ArbStats).pctl
      ≤ (⟨1 / 126, false, 125 / 2, 1 / 16, 1 / 8, 1 / 16, 1 / 8, 126⟩ : ArbStats).pctl :=
  c9_percentile_monotone wHist 0 1 _ _ (by norm_num)
    (by with_unfolding_all decide) (by with_unfolding_all decide)

/-! ## Claim C6: malformed numbers -/

instance {ε α : Type} [DecidableEq ε] [DecidableEq α] : DecidableEq (Except ε α) := fun a b =>
  match a, b with
  | .ok x, .ok y =>
    if h : x = y then isTrue (by rw [h]) else isFalse (by intro hc; injection hc; contradiction)
  | .error x, .error y =>
    if h : x = y then isTrue (by rw [h]) else isFalse (by intro hc; injection hc; contradiction)
  | .ok _, .error _ => isFalse (by intro hc; injection hc)
  | .error _, .ok _ => isFalse (by intro hc; injection hc)

/-- Claim C6 as frozen is false: the character loop of parse_jp_num silently
ignores every character that is neither a digit, a dot nor a unit, so the
digit-free string abc parses to 0.0 rather than None. -/
theorem c6_counterexample :
    parse_jp_num (some "abc") = Except.ok (some 0)
      ∧ parse_jp_num (some "abc") ≠ Except.ok none := by
  constructor
  · decide
  · decide

lemma pyStrip_subset (l : List Char) : ∀ c ∈ pyStrip l, c ∈ l := by
  intro c hc
  unfold pyStrip at hc
  rw [List.mem_reverse] at hc
  have hc2 := (List.dropWhile_sublist (l := (l.dropWhile Char.isWhitespace).reverse)
    (p := Char.isWhitespace)).subset hc
  rw [List.mem_reverse] at hc2
  exact (List.dropWhile_sublist (l := l) (p := Char.isWhitespace)).subset hc2

lemma jpLoop_no_digits (cs : List Char) (t : ℚ)
    (h : ∀ c ∈ cs, ¬(c.isDigit = true) ∧ c ≠ '.') :
    jpLoop cs t [] = Except.ok t := by
  induction cs generalizing t with
  | nil => rfl
  | cons c cs ih =>
    obtain ⟨hd, hdot⟩ := h c (by simp)
    have htail : ∀ x ∈ cs, ¬(x.isDigit = true) ∧ x ≠ '.' := fun x hx => h x (by simp [hx])
    unfold jpLoop
    rw [if_neg (by simp [hd, hdot])]
    cases hu : unitOf c with
    | none => exact ih t htail
    | some u => exact ih t htail

/-- Claim C6, amended: None is returned exactly for a missing argument and for
the placeholder strings (empty after comma removal and stripping, or a bare -
or --); any other string with no digit and no dot characters is parsed to 0.0,
i.e. malformed digit-free strings ARE coerced to zero. -/
theorem c6_digit_free_coerced_to_zero (s : String)
    (h0 : pyStrip (s.data.filter (fun c => c ≠ ',')) ≠ [])
    (h1 : pyStrip (s.data.filter (fun c => c ≠ ',')) ≠ ['-'])
    (h2 : pyStrip (s.data.filter (fun c => c ≠ ',')) ≠ ['-', '-'])
    (hnd : ∀ c ∈ s.data, ¬(c.isDigit = true) ∧ c ≠ '.') :
    parse_jp_num (some s) = Except.ok (some 0) := by
  unfold parse_jp_num
  dsimp only
  rw [if_neg (by simp at h0 h1 h2 ⊢; exact ⟨⟨h0, h1⟩, h2⟩)]
  have hcs : ∀ c ∈ pyStrip (s.data.filter (fun c => c ≠ ',')), ¬(c.isDigit = true) ∧ c ≠ '.' := by
    intro c hc
    exact hnd c (List.mem_of_mem_filter (pyStrip_subset _ c hc))
  rw [jpLoop_no_digits _ 0 hcs]

/-- Witness for the amended C6 on the unit-free string consisting of the
share-count suffix character alone, which the source comment says is ignored. -/
theorem c6_witness : parse_jp_num (some "株") = Except.ok (some 0) :=
  c6_digit_free_coerced_to_zero "株" (by decide) (by decide) (by decide) (by decide)

/-! ## Store lemmas for C7 and C10 -/

lemma upd_loop_none_not_mem (ds : Date) (vol : ℚ) :
    ∀ hist : List VolRec, upd_loop ds vol hist = none → ∀ r ∈ hist, r.date ≠ ds := by
  intro hist
  induction hist with
  | nil => intro _ r hr; simp at hr
  | cons r rs ih =>
    intro h x hx
    unfold upd_loop at h
    by_cases hr : r.date = ds
    · rw [if_pos hr] at h
      by_cases hv : r.prime_volume = some vol
      · rw [if_pos hv] at h; exact absurd h (by simp)
      · rw [if_neg hv] at h; exact absurd h (by simp)
    · rw [if_neg hr] at h
      cases hrec : upd_loop ds vol rs with
      | some res => rw [hrec] at h; exact absurd h (by simp)
      | none =>
        rcases List.mem_cons.mp hx with rfl | hx2
        · exact hr
        · exact ih hrec x hx2

lemma upd_loop_some_self (ds : Date) (vol : ℚ) :
    ∀ (hist h2 : List VolRec) (c : Bool), upd_loop ds vol hist = some (h2, c) →
      upd_loop ds vol h2 = some (h2, false) := by
  intro hist
  induction hist with
  | nil => intro h2 c h; exact absurd h (by simp [upd_loop])
  | cons r rs ih =>
    intro h2 c h
    unfold upd_loop at h
    by_cases hr : r.date = ds
    · rw [if_pos hr] at h
      by_cases hv : r.prime_volume = some vol
      · rw [if_pos hv] at h
        obtain ⟨rfl, rfl⟩ : r :: rs = h2 ∧ false = c := by
          simpa using h
        unfold upd_loop
        rw [if_pos hr, if_pos hv]
      · rw [if_neg hv] at h
        obtain ⟨rfl, rfl⟩ :
            ({ date := r.date, prime_volume := some vol } : VolRec) :: rs = h2 ∧ true = c := by
          simpa using h
        unfold upd_loop
        simp [hr]
    · rw [if_neg hr] at h
      cases hrec : upd_loop ds vol rs with
      | none => rw [hrec] at h; exact absurd h (by simp)
      | some res =>
        obtain ⟨rs2, c2⟩ := res
        rw [hrec] at h
        obtain ⟨rfl, rfl⟩ : r :: rs2 = h2 ∧ c2 = c := by simpa using h
        have := ih rs2 c2 hrec
        unfold upd_loop
        rw [if_neg hr, this]

lemma upd_loop_found (ds : Date) (vol : ℚ) :
    ∀ hist : List VolRec, (∃ r ∈ hist, r.date = ds) →
      (∀ r ∈ hist, r.date = ds → r.prime_volume = some vol) →
      upd_loop ds vol hist = some (hist, false) := by
  intro hist
  induction hist with
  | nil => intro hmem _; simp at hmem
  | cons r rs ih =>
    intro hmem hval
    unfold upd_loop
    by_cases hr : r.date = ds
    · rw [if_pos hr, if_pos (hval r (by simp) hr)]
    · rw [if_neg hr]
      have hmem2 : ∃ x ∈ rs, x.date = ds := by
        obtain ⟨x, hx, hxd⟩ := hmem
        rcases List.mem_cons.mp hx with rfl | hx2
        · exact absurd hxd hr
        · exact ⟨x, hx2, hxd⟩
      rw [ih hmem2 (fun x hx hxd => hval x (by simp [hx]) hxd)]

lemma upd_loop_dates (ds : Date) (vol : ℚ) :
    ∀ (hist h2 : List VolRec) (c : Bool), upd_loop ds vol hist = some (h2, c) →
      h2.map (fun r => r.date) = hist.map (fun r => r.date) := by
  intro hist
  induction hist with
  | nil => intro h2 c h; exact absurd h (by simp [upd_loop])
  | cons r rs ih =>
    intro h2 c h
    unfold upd_loop at h
    by_cases hr : r.date = ds
    · rw [if_pos hr] at h
      by_cases hv : r.prime_volume = some vol
      · rw [if_pos hv] at h
        obtain ⟨rfl, rfl⟩ : r :: rs = h2 ∧ false = c := by simpa using h
        rfl
      · rw [if_neg hv] at h
        obtain ⟨rfl, rfl⟩ :
            ({ date := r.date, prime_volume := some vol } : VolRec) :: rs = h2 ∧ true = c := by
          simpa using h
        rfl
    · rw [if_neg hr] at h
      cases hrec : upd_loop ds vol rs with
      | none => rw [hrec] at h; exact absurd h (by simp)
      | some res =>
        obtain ⟨rs2, c2⟩ := res
        rw [hrec] at h
        obtain ⟨rfl, rfl⟩ : r :: rs2 = h2 ∧ c2 = c := by simpa using h
        simpa using ih rs2 c2 hrec

/-! ## Claim C7: idempotent upsert -/

lemma upd_loop_none_of_not_mem (ds : Date) (vol : ℚ) :
    ∀ hist : List VolRec, (∀ r ∈ hist, r.date ≠ ds) → upd_loop ds vol hist = none := by
  intro hist
  induction hist with
  | nil => intro _; rfl
  | cons r rs ih =>
    intro h
    unfold upd_loop
    rw [if_neg (h r (by simp)), ih (fun x hx => h x (by simp [hx]))]

lemma orderedInsert_head (x : VolRec) (rest : List VolRec)
    (hsort : List.Sorted recLe (x :: rest)) :
    rest.orderedInsert recLe x = x :: rest := by
  cases rest with
  | nil => rfl
  | cons y rest2 =>
    unfold List.orderedInsert
    rw [if_pos (List.rel_of_sorted_cons hsort y (by simp))]

/-- Appending a record strictly below a sorted history and sorting puts it in
front and leaves the rest untouched. -/
lemma insertionSort_append_bottom (nr : VolRec) :
    ∀ hist : List VolRec, List.Sorted recLe hist → (∀ r ∈ hist, ¬recLe r nr) →
      (hist ++ [nr]).insertionSort recLe = nr :: hist := by
  intro hist
  induction hist with
  | nil => intro _ _; rfl
  | cons x rest ih =>
    intro hsort hbot
    have h1 : (x :: rest ++ [nr]).insertionSort recLe
        = ((rest ++ [nr]).insertionSort recLe).orderedInsert recLe x := rfl
    rw [h1, ih hsort.tail (fun r hr => hbot r (by simp [hr]))]
    unfold List.orderedInsert
    rw [if_neg (hbot x (by simp))]
    rw [orderedInsert_head x rest hsort]

/-- When the store is exactly full and the upserted date lies strictly below
every stored date, the appended record is evicted again by the trim: the call
returns the unchanged history with flag true. -/
lemma update_evicts (hist : List VolRec) (dt : Date) (vol : ℚ)
    (hsort : List.Sorted recLe hist)
    (hlen : hist.length = STATE_MAX_RECORDS)
    (hbot : ∀ r ∈ hist, ¬recLe r ({ date := dt, prime_volume := some vol } : VolRec)) :
    update_volume_history hist dt vol = (hist, true) := by
  have hne : upd_loop dt vol hist = none := by
    refine upd_loop_none_of_not_mem dt vol hist (fun r hr hd => ?_)
    refine hbot r hr ?_
    show dateLe r.date dt
    rw [hd]
    unfold dateLe
    omega
  unfold update_volume_history
  rw [hne]
  dsimp only
  rw [insertionSort_append_bottom _ hist hsort hbot]
  have hlen2 : (({ date := dt, prime_volume := some vol } : VolRec) :: hist).length
      = STATE_MAX_RECORDS + 1 := by simp [hlen]
  rw [if_pos (by omega)]
  rw [hlen2]
  norm_num

/-- The trim-eviction scenario: a full store of 1400 records whose dates all
lie in 2020-2025, and an upsert date in 2019. -/
def bigHist : List VolRec :=
  (List.range 1400).map
    (fun i => { date := ⟨2020 + i / 250, 1 + (i % 250) / 25, 1 + i % 25⟩, prime_volume := some 1 })

def oldDate : Date := ⟨2019, 1, 1⟩

lemma bigHist_sorted : List.Sorted recLe bigHist := by
  refine List.Pairwise.map _ (fun i j (hij : i < j) => ?_) (List.pairwise_lt_range 1400)
  show dateLe _ _
  unfold dateLe
  dsimp only
  omega

lemma bigHist_bot : ∀ r ∈ bigHist,
    ¬recLe r ({ date := oldDate, prime_volume := some (5 : ℚ) } : VolRec) := by
  intro r hr
  obtain ⟨i, _, rfl⟩ := List.mem_map.mp hr
  show ¬dateLe _ _
  unfold dateLe oldDate
  dsimp only
  omega

lemma bigHist_length : bigHist.length = STATE_MAX_RECORDS := by
  simp [bigHist, STATE_MAX_RECORDS]

/-- Claim C7 as frozen is false: when the store already holds 1400 records and
the upserted date is older than all of them, the appended record is evicted by
the retention trim, so resubmitting the identical observation reports changed
equal true again instead of false (the history content is nevertheless
unchanged: both calls return the original store). -/
theorem c7_counterexample :
    (update_volume_history (update_volume_history bigHist oldDate 5).1 oldDate 5).2 = true := by
  have h1 := update_evicts bigHist oldDate 5 bigHist_sorted bigHist_length bigHist_bot
  rw [h1, h1]

/-- Claim C7, amended: the double upsert leaves the history unchanged and the
second call reports changed equal false, provided the upserted date is still
present after the first call; it is absent only when the first call's
1400-record trim evicted it, in which case the content is still identical but
the flag is true. -/
theorem c7_idempotent_upsert (hist : List VolRec) (dt : Date) (vol : ℚ)
    (hsurv : ∃ r ∈ (update_volume_history hist dt vol).1, r.date = dt) :
    update_volume_history (update_volume_history hist dt vol).1 dt vol
      = ((update_volume_history hist dt vol).1, false) := by
  cases hl : upd_loop dt vol hist with
  | some res =>
    obtain ⟨h2, c⟩ := res
    have hfst : (update_volume_history hist dt vol).1 = h2 := by
      unfold update_volume_history
      rw [hl]
    rw [hfst]
    unfold update_volume_history
    rw [upd_loop_some_self dt vol hist h2 c hl]
  | none =>
    have habs := upd_loop_none_not_mem dt vol hist hl
    have hfst : (update_volume_history hist dt vol).1
        = (let h2 := (hist ++ [({ date := dt, prime_volume := some vol } : VolRec)]).insertionSort recLe
           if STATE_MAX_RECORDS < h2.length then h2.drop (h2.length - STATE_MAX_RECORDS) else h2) := by
      unfold update_volume_history
      rw [hl]
      dsimp only
      by_cases hbig : STATE_MAX_RECORDS
          < ((hist ++ [({ date := dt, prime_volume := some vol } : VolRec)]).insertionSort
              recLe).length
      · rw [if_pos hbig, if_pos hbig]
      · rw [if_neg hbig, if_neg hbig]
    set T := (update_volume_history hist dt vol).1 with hT
    have hsubT : ∀ r ∈ T, r ∈ hist ++ [({ date := dt, prime_volume := some vol } : VolRec)] := by
      intro r hr
      rw [hfst] at hr
      dsimp only at hr
      have hr2 : r ∈ (hist ++ [({ date := dt, prime_volume := some vol } : VolRec)]).insertionSort recLe := by
        by_cases hc : STATE_MAX_RECORDS
            < ((hist ++ [({ date := dt, prime_volume := some vol } : VolRec)]).insertionSort recLe).length
        · rw [if_pos hc] at hr; exact List.mem_of_mem_drop hr
        · rw [if_neg hc] at hr; exact hr
      exact (List.mem_insertionSort recLe).mp hr2
    have hall : ∀ r ∈ T, r.date = dt → r.prime_volume = some vol := by
      intro r hr hrd
      rcases List.mem_append.mp (hsubT r hr) with hmem | hmem
      · exact absurd hrd (habs r hmem)
      · rcases List.mem_singleton.mp hmem with rfl
        rfl
    unfold update_volume_history
    rw [upd_loop_found dt vol T hsurv hall]

/-- Witness for the amended C7: a fresh store, one upsert, then the identical
resubmission is a no-op with flag false. -/
theorem c7_witness :
    update_volume_history (update_volume_history [] ⟨2026, 1, 5⟩ 7).1 ⟨2026, 1, 5⟩ 7
      = ((update_volume_history [] ⟨2026, 1, 5⟩ 7).1, false) :=
  c7_idempotent_upsert [] ⟨2026, 1, 5⟩ 7 (by with_unfolding_all decide)

/-! ## Claim C10: store invariants -/

/-- Claim C10: update_volume_history preserves the store invariant: ascending
date order, at most one record per date, at most STATE_MAX_RECORDS records
(the oldest excess being evicted on append). -/
theorem c10_invariants (hist : List VolRec) (dt : Date) (vol : ℚ)
    (hsort : List.Sorted recLe hist)
    (hnodup : (hist.map (fun r => r.date)).Nodup)
    (hlen : hist.length ≤ STATE_MAX_RECORDS) :
    List.Sorted recLe (update_volume_history hist dt vol).1
      ∧ ((update_volume_history hist dt vol).1.map (fun r => r.date)).Nodup
      ∧ (update_volume_history hist dt vol).1.length ≤ STATE_MAX_RECORDS := by
  cases hl : upd_loop dt vol hist with
  | some res =>
    obtain ⟨h2, c⟩ := res
    have hfst : (update_volume_history hist dt vol).1 = h2 := by
      unfold update_volume_history
      rw [hl]
    have hd := upd_loop_dates dt vol hist h2 c hl
    rw [hfst]
    refine ⟨?_, ?_, ?_⟩
    · have hp : (h2.map (fun r => r.date)).Pairwise dateLe := by
        rw [hd]
        exact List.pairwise_map.mpr hsort
      have hp2 : List.Pairwise (fun a b : VolRec => dateLe a.date b.date) h2 :=
        List.pairwise_map.mp hp
      exact hp2
    · rw [hd]; exact hnodup
    · have : h2.length = hist.length := by
        have := congrArg List.length hd
        simpa using this
      omega
  | none =>
    have habs := upd_loop_none_not_mem dt vol hist hl
    have hnotin : dt ∉ hist.map (fun r => r.date) := by
      simp only [List.mem_map]
      rintro ⟨r, hr, hrd⟩
      exact habs r hr hrd
    set nr : VolRec := { date := dt, prime_volume := some vol } with hnr
    have hsorted2 : List.Sorted recLe ((hist ++ [nr]).insertionSort recLe) :=
      List.sorted_insertionSort recLe _
    have hnodup2 : (((hist ++ [nr]).insertionSort recLe).map (fun r => r.date)).Nodup := by
      have hperm : List.Perm (((hist ++ [nr]).insertionSort recLe).map (fun r => r.date))
          ((hist ++ [nr]).map (fun r => r.date)) :=
        (List.perm_insertionSort recLe _).map _
      rw [hperm.nodup_iff]
      simp [List.nodup_append, hnodup, hnotin]
    have hlen2 : ((hist ++ [nr]).insertionSort recLe).length = hist.length + 1 := by
      simp
    unfold update_volume_history
    rw [hl]
    dsimp only
    rw [← hnr]
    by_cases hbig : STATE_MAX_RECORDS < ((hist ++ [nr]).insertionSort recLe).length
    · rw [if_pos hbig]
      dsimp only
      refine ⟨?_, ?_, ?_⟩
      · exact List.Pairwise.sublist (List.drop_sublist _ _) hsorted2
      · rw [List.map_drop]
        exact List.Nodup.sublist (List.drop_sublist _ _) hnodup2
      · rw [List.length_drop]
        omega
    · rw [if_neg hbig]
      dsimp only
      exact ⟨hsorted2, hnodup2, by omega⟩

/-- Witness for C10: one sorted single-record store, a new later date. -/
theorem c10_witness :
    List.Sorted recLe (update_volume_history [⟨⟨2026, 1, 1⟩, some 5⟩] ⟨2026, 1, 2⟩ 3).1
      ∧ ((update_volume_history [⟨⟨2026, 1, 1⟩, some 5⟩] ⟨2026, 1, 2⟩ 3).1.map
          (fun r => r.date)).Nodup
      ∧ (update_volume_history [⟨⟨2026, 1, 1⟩, some 5⟩] ⟨2026, 1, 2⟩ 3).1.length
          ≤ STATE_MAX_RECORDS :=
  c10_invariants [⟨⟨2026, 1, 1⟩, some 5⟩] ⟨2026, 1, 2⟩ 3
    (by with_unfolding_all decide) (by decide) (by decide)

/-! ## Claim C5: merge, not overwrite (spec-modelled store) -/

namespace SpecStore

lemma upsertLoop_none (r : HRecord) :
    ∀ hist : List HRecord, (∀ x ∈ hist, x.date ≠ r.date) → upsertLoop r hist = none := by
  intro hist
  induction hist with
  | nil => intro _; rfl
  | cons x xs ih =>
    intro h
    unfold upsertLoop
    rw [if_neg (h x (by simp)), ih (fun y hy => h y (by simp [hy]))]
    rfl

lemma upsertLoop_append (r x : HRecord) :
    ∀ hist : List HRecord, (∀ y ∈ hist, y.date ≠ r.date) → x.date = r.date →
      upsertLoop r (hist ++ [x]) = some (hist ++ [mergeRecord x r]) := by
  intro hist
  induction hist with
  | nil =>
    intro _ hx
    show upsertLoop r [x] = some [mergeRecord x r]
    unfold upsertLoop
    rw [if_pos hx]
  | cons y ys ih =>
    intro h hx
    show upsertLoop r (y :: (ys ++ [x])) = _
    unfold upsertLoop
    rw [if_neg (h y (by simp)), ih (fun z hz => h z (by simp [hz])) hx]
    rfl

end SpecStore

/-- Claim C5: in the spec's store, upserting a date-D record with buy B and
sell S and then a date-D record with only volume V leaves exactly one record
for D, carrying all three fields, with the derived arb_net equal to B minus S;
the known buy/sell fields are not overwritten by the missing fields of the
second record. -/
theorem c5_merge_not_overwrite (hist : List SpecStore.HRecord) (D : Date) (B S V : ℚ)
    (hfresh : ∀ x ∈ hist, x.date ≠ D) :
    ((SpecStore.upsert (SpecStore.upsert hist ⟨D, some B, some S, none⟩).1
        ⟨D, none, none, some V⟩).1.filter (fun x => x.date = D))
        = [⟨D, some B, some S, some V⟩]
      ∧ SpecStore.HRecord.arb_net ⟨D, some B, some S, some V⟩ = some (B - S) := by
  have h1 : (SpecStore.upsert hist ⟨D, some B, some S, none⟩).1
      = hist ++ [⟨D, some B, some S, none⟩] := by
    unfold SpecStore.upsert
    rw [SpecStore.upsertLoop_none _ hist hfresh]
  have h2 : (SpecStore.upsert (hist ++ [⟨D, some B, some S, none⟩]) ⟨D, none, none, some V⟩).1
      = hist ++ [⟨D, some B, some S, some V⟩] := by
    unfold SpecStore.upsert
    rw [SpecStore.upsertLoop_append ⟨D, none, none, some V⟩ ⟨D, some B, some S, none⟩
      hist hfresh rfl]
    rfl
  rw [h1, h2]
  refine ⟨?_, rfl⟩
  rw [List.filter_append]
  have hnil : hist.filter (fun x => x.date = D) = [] := by
    rw [List.filter_eq_nil_iff]
    intro x hx
    simpa using hfresh x hx
  rw [hnil]
  simp

/-- Witness for C5 on an empty store with concrete values. -/
theorem c5_witness :
    ((SpecStore.upsert (SpecStore.upsert [] ⟨⟨2026, 2, 3⟩, some 8, some 3, none⟩).1
        ⟨⟨2026, 2, 3⟩, none, none, some 12⟩).1.filter (fun x => x.date = ⟨2026, 2, 3⟩))
        = [⟨⟨2026, 2, 3⟩, some 8, some 3, some 12⟩]
      ∧ SpecStore.HRecord.arb_net ⟨⟨2026, 2, 3⟩, some 8, some 3, some 12⟩ = some (8 - 3) :=
  c5_merge_not_overwrite [] ⟨2026, 2, 3⟩ 8 3 12 (by simp)

/-! ## Success-path lemmas for the classifier claims -/

lemma arb_window_none (net_hist : List ℚ) (h : net_hist.length < ARB_PCTL_HALF_POINTS) :
    arb_window net_hist = none := by
  have h245 : ¬(ARB_PCTL_YEAR_POINTS ≤ net_hist.length) := by
    unfold ARB_PCTL_YEAR_POINTS
    unfold ARB_PCTL_HALF_POINTS at h
    omega
  have h126 : ¬(ARB_PCTL_HALF_POINTS ≤ net_hist.length) := by omega
  unfold arb_window
  by_cases h0 : net_hist = []
  · rw [if_pos h0]
  · rw [if_neg h0, if_neg h245, if_neg h126]

/-- Characterization of evaluate on the success path: when both sufficiency
gates pass, the result is the classification of the computed conditions. -/
lemma evaluate_success (state : List VolRec) (I : Inputs)
    (hg1 : insufficient1 I (calc_delta I.arb_net_hist ARB_DELTA_MAIN)
        (get_volume_ma (state_after state I).1 VOL_MA_DAYS) = false)
    (hg2 : ((compute_arb_stats I.arb_net_hist (I.arb_buy.getD 0 - I.arb_sell.getD 0)).isNone
        || (calc_delta I.arb_net_hist ARB_DELTA_LONG).isNone) = false) :
    evaluate state I = successResult (state_after state I).1 (state_after state I).2 (report_dt I)
      (calc_delta I.arb_net_hist ARB_DELTA_SHORT)
      ((calc_delta I.arb_net_hist ARB_DELTA_MAIN).getD 0)
      ((calc_delta I.arb_net_hist ARB_DELTA_LONG).getD 0)
      (I.prime_vol.getD 0)
      ((get_volume_ma (state_after state I).1 VOL_MA_DAYS).getD 0)
      (I.move_pct.getD 0) (I.q99_move.getD 0)
      ((compute_arb_stats I.arb_net_hist (I.arb_buy.getD 0 - I.arb_sell.getD 0)).getD
        ⟨0, false, 0, 0, 0, 0, 0, 0⟩)
      I.topix_pos I.basis_info := by
  unfold evaluate
  dsimp only
  rw [hg1, hg2]
  rfl

/-- Any boolean field that is false on every insufficient result and true on
the evaluation forces both sufficiency gates to have passed. -/
lemma gates_of_flag (state : List VolRec) (I : Inputs) (f : EvalResult → Bool)
    (hf : ∀ (h : List VolRec) (u : Bool) (r : Date), f (insufficient_result h u r) = false)
    (hflag : f (evaluate state I) = true) :
    insufficient1 I (calc_delta I.arb_net_hist ARB_DELTA_MAIN)
        (get_volume_ma (state_after state I).1 VOL_MA_DAYS) = false
      ∧ ((compute_arb_stats I.arb_net_hist (I.arb_buy.getD 0 - I.arb_sell.getD 0)).isNone
        || (calc_delta I.arb_net_hist ARB_DELTA_LONG).isNone) = false := by
  unfold evaluate at hflag
  dsimp only at hflag
  by_cases hg1 : insufficient1 I (calc_delta I.arb_net_hist ARB_DELTA_MAIN)
      (get_volume_ma (state_after state I).1 VOL_MA_DAYS) = true
  · rw [if_pos hg1, hf] at hflag
    exact absurd hflag (by simp)
  · have hg1f : insufficient1 I (calc_delta I.arb_net_hist ARB_DELTA_MAIN)
        (get_volume_ma (state_after state I).1 VOL_MA_DAYS) = false := by
      exact Bool.of_not_eq_true hg1
    rw [if_neg hg1] at hflag
    by_cases hg2 : ((compute_arb_stats I.arb_net_hist (I.arb_buy.getD 0 - I.arb_sell.getD 0)).isNone
        || (calc_delta I.arb_net_hist ARB_DELTA_LONG).isNone) = true
    · rw [if_pos hg2, hf] at hflag
      exact absurd hflag (by simp)
    · exact ⟨hg1f, Bool.of_not_eq_true hg2⟩

/-- When the other corroborating triggers are off, the classifier yields
WARNING when the major-SQ-near flag is set (CAUTION boosted) and NORMAL when
it is not. -/
lemma classify_sq_only (wk st msn : Bool) (h : (wk || st) = true) :
    (classify wk st true false false false msn).level
      = if msn then Level.WARNING else Level.NORMAL := by
  cases wk <;> cases st <;> cases msn <;> revert h <;> decide

/-- The boost rule: a pre-boost CAUTION together with the major-SQ-near flag
yields WARNING. -/
lemma classify_boost (wk st liq idx bsd em : Bool)
    (hc : (classify wk st liq idx bsd em true).caution_pre = true) :
    (classify wk st liq idx bsd em true).level = Level.WARNING := by
  cases wk <;> cases st <;> cases liq <;> cases idx <;> cases bsd <;> cases em <;>
    revert hc <;> decide

/-! ## Claim C1: sufficiency gate precedence -/

/-- Claim C1: when the latest buy/sell, the 5-lag delta, a positive turnover,
the 20-day moving average (computed after the upsert), the price move and the
emergency threshold are all available, but the history is too short for the
25-lag delta (under 26 points) or for the percentile window (under 126
points), the run classifies as INSUFFICIENT and no risk level is assigned. -/
theorem c1_sufficiency_gate (state : List VolRec) (I : Inputs)
    (b s d5v pv vma mv q99v : ℚ)
    (hb : I.arb_buy = some b) (hs : I.arb_sell = some s)
    (hd5 : calc_delta I.arb_net_hist ARB_DELTA_MAIN = some d5v)
    (hpv : I.prime_vol = some pv) (hpos : 0 < pv)
    (hvma : get_volume_ma (state_after state I).1 VOL_MA_DAYS = some vma)
    (hmv : I.move_pct = some mv) (hq : I.q99_move = some q99v)
    (hshort : I.arb_net_hist.length < ARB_DELTA_LONG + 1
      ∨ I.arb_net_hist.length < ARB_PCTL_HALF_POINTS) :
    (evaluate state I).level = Level.INSUFFICIENT := by
  have hlt : I.arb_net_hist.length < ARB_PCTL_HALF_POINTS := by
    unfold ARB_DELTA_LONG at hshort
    unfold ARB_PCTL_HALF_POINTS at *
    omega
  have hstats : compute_arb_stats I.arb_net_hist (I.arb_buy.getD 0 - I.arb_sell.getD 0) = none := by
    unfold compute_arb_stats
    rw [arb_window_none _ hlt]
  have hgate : insufficient1 I (calc_delta I.arb_net_hist ARB_DELTA_MAIN)
      (get_volume_ma (state_after state I).1 VOL_MA_DAYS) = false := by
    unfold insufficient1
    rw [hb, hs, hd5, hpv, hvma, hmv, hq]
    simp [show ¬(pv ≤ 0) from not_le.mpr hpos]
  unfold evaluate
  dsimp only
  rw [hgate, hstats]
  rfl

/-- Witness for C1: a 30-point history passes the 5- and 25-lag checks but not
the 126-point percentile window; the result is INSUFFICIENT. -/
theorem c1_witness :
    (evaluate (histV 100) (inputsAt ⟨2026, 4, 7⟩ 50 30)).level = Level.INSUFFICIENT :=
  c1_sufficiency_gate (histV 100) (inputsAt ⟨2026, 4, 7⟩ 50 30) 100 100 0 50 (195 / 2) 1.5 2.5
    rfl rfl (by with_unfolding_all decide) rfl (by norm_num)
    (by with_unfolding_all decide) rfl rfl (Or.inr (by decide))

/-! ## Claim C4: the settlement-proximity trigger -/

/-- Claim C4 as frozen is false at the 2026-04-07 scenario: weak arbitrage
stuck and liquidity mismatch hold, WARNING does not, the settlement day is 3
calendar days away (2026-04-10), index-high, basis-stress-down and emergency
are all false -- yet the result is NORMAL, not CAUTION, because the CAUTION
trigger requires the settlement month to be major and April is not. -/
theorem c4_counterexample :
    (evaluate (histV 100) (inputsAt ⟨2026, 4, 7⟩ 50 130)).arb_stuck_weak = true
      ∧ (evaluate (histV 100) (inputsAt ⟨2026, 4, 7⟩ 50 130)).liq_mismatch = true
      ∧ (evaluate (histV 100) (inputsAt ⟨2026, 4, 7⟩ 50 130)).idx_high_topix = false
      ∧ (evaluate (histV 100) (inputsAt ⟨2026, 4, 7⟩ 50 130)).basis_stress_down = false
      ∧ (evaluate (histV 100) (inputsAt ⟨2026, 4, 7⟩ 50 130)).emergency_move = false
      ∧ (evaluate (histV 100) (inputsAt ⟨2026, 4, 7⟩ 50 130)).warning_pre = false
      ∧ (evaluate (histV 100) (inputsAt ⟨2026, 4, 7⟩ 50 130)).d2sq = 3
      ∧ (evaluate (histV 100) (inputsAt ⟨2026, 4, 7⟩ 50 130)).level = Level.NORMAL := by
  with_unfolding_all decide

/-- Claim C4, amended: with (weak or strong) arbitrage stuck and liquidity
mismatch holding and index-high, basis-stress-down and emergency all false,
settlement proximity alone is not a sufficient corroborating trigger: within 5
calendar days of the settlement day the classifier returns WARNING when the
report month is major (CAUTION fires and is immediately boosted) and NORMAL
when it is not (CAUTION does not fire at all). -/
theorem c4_sq_trigger_needs_major_month (state : List VolRec) (I : Inputs)
    (hliq : (evaluate state I).liq_mismatch = true)
    (hstuck : ((evaluate state I).arb_stuck_weak || (evaluate state I).arb_stuck_strong) = true)
    (hidx : (evaluate state I).idx_high_topix = false)
    (hbsd : (evaluate state I).basis_stress_down = false)
    (hem : (evaluate state I).emergency_move = false)
    (hnear : (evaluate state I).d2sq ≤ SQ_NEAR_DAYS) :
    (evaluate state I).level
      = if is_major_sq_month (evaluate state I).report_date then Level.WARNING
        else Level.NORMAL := by
  obtain ⟨hg1, hg2⟩ := gates_of_flag state I (fun R => R.liq_mismatch) (fun h u r => rfl) hliq
  have hE := evaluate_success state I hg1 hg2
  rw [hE] at hliq hstuck hidx hbsd hem hnear ⊢
  unfold successResult at hliq hstuck hidx hbsd hem hnear ⊢
  dsimp only at hliq hstuck hidx hbsd hem hnear ⊢
  rw [hliq, hidx, hbsd, hem, decide_eq_true hnear, Bool.true_and]
  exact classify_sq_only _ _ _ hstuck

/-- Witness for the amended C4 at the non-major scenario: the conclusion
evaluates to NORMAL for the April report date. -/
theorem c4_witness :
    (evaluate (histV 100) (inputsAt ⟨2026, 4, 7⟩ 50 130)).level
      = if is_major_sq_month (evaluate (histV 100) (inputsAt ⟨2026, 4, 7⟩ 50 130)).report_date
        then Level.WARNING else Level.NORMAL :=
  c4_sq_trigger_needs_major_month (histV 100) (inputsAt ⟨2026, 4, 7⟩ 50 130)
    (by with_unfolding_all decide) (by with_unfolding_all decide)
    (by with_unfolding_all decide) (by with_unfolding_all decide)
    (by with_unfolding_all decide) (by with_unfolding_all decide)

/-! ## Claim C8: the boost rule -/

/-- Claim C8: whenever the pre-boost CAUTION conditions hold and the
settlement day is at most 5 calendar days away and falls in a major settlement
month, the final level is WARNING, not CAUTION. -/
theorem c8_boost_to_warning (state : List VolRec) (I : Inputs)
    (hc : (evaluate state I).caution_pre = true)
    (hvalid : (evaluate state I).report_date.Valid)
    (hnear : get_days_to_sq (evaluate state I).report_date ≤ SQ_NEAR_DAYS)
    (hmaj : (settlement_date (evaluate state I).report_date).month ∈ MAJOR_SQ_MONTHS) :
    (evaluate state I).level = Level.WARNING := by
  obtain ⟨hg1, hg2⟩ := gates_of_flag state I (fun R => R.caution_pre) (fun h u r => rfl) hc
  have hE := evaluate_success state I hg1 hg2
  rw [hE] at hc hvalid hnear hmaj ⊢
  unfold successResult at hc hvalid hnear hmaj ⊢
  dsimp only at hc hvalid hnear hmaj ⊢
  have hmon : is_major_sq_month (report_dt I) = true := by
    rw [settlement_month_of_near _ hvalid hnear] at hmaj
    unfold is_major_sq_month
    exact decide_eq_true hmaj
  rw [decide_eq_true hnear, hmon, Bool.true_and] at hc ⊢
  exact classify_boost _ _ _ _ _ _ hc

/-- Witness for C8 at the 2026-03-10 scenario: settlement on 2026-03-13, three
days away in March, CAUTION pre-boost, final level WARNING. -/
theorem c8_witness :
    (evaluate (histV 100) (inputsAt ⟨2026, 3, 10⟩ 50 130)).level = Level.WARNING :=
  c8_boost_to_warning (histV 100) (inputsAt ⟨2026, 3, 10⟩ 50 130)
    (by with_unfolding_all decide) (by with_unfolding_all decide)
    (by with_unfolding_all decide) (by with_unfolding_all decide)


/-! ## Claim C2: the moving-average ratio -/

lemma histV_not_mem (V : ℚ) : ∀ r ∈ histV V, r.date ≠ ⟨2026, 3, 21⟩ := by
  intro r hr
  obtain ⟨i, hi, rfl⟩ := List.mem_map.mp hr
  intro hd
  simp [Date.mk.injEq] at hd

lemma c2_state_update (V : ℚ) :
    update_volume_history (histV V) ⟨2026, 3, 21⟩ (2 * V)
      = (histV V ++ [({ date := ⟨2026, 3, 21⟩, prime_volume := some (2 * V) } : VolRec)], true) := by
  have hloop := upd_loop_none_of_not_mem ⟨2026, 3, 21⟩ (2 * V) (histV V) (histV_not_mem V)
  have hp : ((histV V ++ [({ date := ⟨2026, 3, 21⟩, prime_volume := some (2 * V) } : VolRec)]).map
      (fun r => r.date)).Pairwise dateLe := by
    have hmap : (histV V ++ [({ date := ⟨2026, 3, 21⟩, prime_volume := some (2 * V) } : VolRec)]).map
        (fun r => r.date)
        = (List.range 20).map (fun i => (⟨2026, 2, i + 1⟩ : Date)) ++ [⟨2026, 3, 21⟩] := by
      simp [histV]
    rw [hmap]
    decide
  have hsorted0 : List.Pairwise (fun a b : VolRec => dateLe a.date b.date)
      (histV V ++ [({ date := ⟨2026, 3, 21⟩, prime_volume := some (2 * V) } : VolRec)]) :=
    List.pairwise_map.mp hp
  have hsorted : List.Sorted recLe
      (histV V ++ [({ date := ⟨2026, 3, 21⟩, prime_volume := some (2 * V) } : VolRec)]) := hsorted0
  have hlen : (histV V ++ [({ date := ⟨2026, 3, 21⟩, prime_volume := some (2 * V) } : VolRec)]).length
      = 21 := by
    simp [histV]
  unfold update_volume_history
  rw [hloop]
  dsimp only
  rw [List.Sorted.insertionSort_eq hsorted]
  rw [if_neg (by rw [hlen]; decide)]

lemma c2_vol_ma (V : ℚ) (hV : 0 < V) :
    get_volume_ma (histV V ++ [({ date := ⟨2026, 3, 21⟩, prime_volume := some (2 * V) } : VolRec)])
      VOL_MA_DAYS = some (21 * V / 20) := by
  have hfm : (histV V ++ [({ date := ⟨2026, 3, 21⟩, prime_volume := some (2 * V) } : VolRec)]).filterMap
      (fun r => r.prime_volume) = List.replicate 20 V ++ [2 * V] := rfl
  have hfil : (List.replicate 20 V ++ [2 * V]).filter (fun v => decide (0 < v))
      = List.replicate 20 V ++ [2 * V] := by
    rw [List.filter_eq_self]
    intro a ha
    rcases List.mem_append.mp ha with h | h
    · rw [List.eq_of_mem_replicate h]
      exact decide_eq_true hV
    · rcases List.mem_singleton.mp h with rfl
      exact decide_eq_true (by positivity)
  have hlenv : (List.replicate 20 V ++ [2 * V]).length = 21 := by simp
  have hdrop : (List.replicate 20 V ++ [2 * V]).drop (21 - VOL_MA_DAYS)
      = List.replicate 19 V ++ [2 * V] := rfl
  have hsum : (List.replicate 19 V ++ [2 * V]).sum = 21 * V := by
    simp [List.sum_append, List.sum_replicate, nsmul_eq_mul]
    ring
  have hlen19 : (List.replicate 19 V ++ [2 * V]).length = 20 := by simp
  unfold get_volume_ma
  dsimp only
  rw [hfm, hfil, hlenv, hdrop, hsum, hlen19]
  rw [if_neg (by decide)]
  norm_num

lemma c2_state_after (V : ℚ) (hV : 0 < V) :
    state_after (histV V) (inputsAt ⟨2026, 3, 21⟩ (2 * V) 130)
      = (histV V ++ [({ date := ⟨2026, 3, 21⟩, prime_volume := some (2 * V) } : VolRec)], true) := by
  unfold state_after inputsAt
  dsimp only
  rw [if_pos (by positivity)]
  exact c2_state_update V

/-- Claim C2, amended: starting from twenty records of volume V, upserting
today's volume 2V and computing the 20-observation moving average as main()
does (after the upsert, so the new point is included) yields 21V/20, not V,
and the resulting ratio is 40/21, not 2. -/
theorem c2_ma_includes_new_point (V : ℚ) (hV : 0 < V) :
    (evaluate (histV V) (inputsAt ⟨2026, 3, 21⟩ (2 * V) 130)).vol_ma = some (21 * V / 20)
      ∧ (evaluate (histV V) (inputsAt ⟨2026, 3, 21⟩ (2 * V) 130)).ratio_vol = some (40 / 21) := by
  have hVne : V ≠ 0 := ne_of_gt hV
  have h5 : calc_delta (flatHist 130) ARB_DELTA_MAIN = some 0 := by with_unfolding_all decide
  have h25 : calc_delta (flatHist 130) ARB_DELTA_LONG = some 0 := by with_unfolding_all decide
  have hst : compute_arb_stats (flatHist 130) ((100 : ℚ) - 100)
      = some ⟨0, false, 0, 0, 0, 0, 0, 126⟩ := by with_unfolding_all decide
  have hsa := c2_state_after V hV
  have hvma := c2_vol_ma V hV
  have hg1 : insufficient1 (inputsAt ⟨2026, 3, 21⟩ (2 * V) 130)
      (calc_delta (inputsAt ⟨2026, 3, 21⟩ (2 * V) 130).arb_net_hist ARB_DELTA_MAIN)
      (get_volume_ma (state_after (histV V) (inputsAt ⟨2026, 3, 21⟩ (2 * V) 130)).1 VOL_MA_DAYS)
      = false := by
    rw [hsa]
    dsimp only
    unfold insufficient1 inputsAt
    dsimp only
    rw [hvma, h5, decide_eq_false (not_le.mpr (by positivity : (0 : ℚ) < 2 * V))]
    rfl
  have hg2 : ((compute_arb_stats (inputsAt ⟨2026, 3, 21⟩ (2 * V) 130).arb_net_hist
        ((inputsAt ⟨2026, 3, 21⟩ (2 * V) 130).arb_buy.getD 0
          - (inputsAt ⟨2026, 3, 21⟩ (2 * V) 130).arb_sell.getD 0)).isNone
      || (calc_delta (inputsAt ⟨2026, 3, 21⟩ (2 * V) 130).arb_net_hist ARB_DELTA_LONG).isNone)
      = false := by
    unfold inputsAt
    dsimp only [Option.getD_some]
    rw [hst, h25]
    rfl
  have hE := evaluate_success (histV V) (inputsAt ⟨2026, 3, 21⟩ (2 * V) 130) hg1 hg2
  rw [hE]
  unfold successResult
  dsimp only
  constructor
  · rw [hsa]
    dsimp only
    rw [hvma]
    rfl
  · rw [hsa]
    dsimp only
    rw [hvma]
    unfold inputsAt
    dsimp only [Option.getD_some]
    congr 1
    field_simp
    ring

/-- Claim C2 as frozen is false: with V equal to 100 the moving average used
for the ratio is 105 (the upserted point 200 is included in the trailing 20),
not 100, and the ratio is 40/21, not 2.0. -/
theorem c2_counterexample :
    (evaluate (histV 100) (inputsAt ⟨2026, 3, 21⟩ 200 130)).vol_ma = some 105
      ∧ (evaluate (histV 100) (inputsAt ⟨2026, 3, 21⟩ 200 130)).vol_ma ≠ some 100
      ∧ (evaluate (histV 100) (inputsAt ⟨2026, 3, 21⟩ 200 130)).ratio_vol ≠ some 2 := by
  with_unfolding_all decide

/-- Witness for the amended C2 at V equal to 100. -/
theorem c2_witness :
    (evaluate (histV 100) (inputsAt ⟨2026, 3, 21⟩ (2 * 100) 130)).vol_ma = some (21 * 100 / 20)
      ∧ (evaluate (histV 100) (inputsAt ⟨2026, 3, 21⟩ (2 * 100) 130)).ratio_vol = some (40 / 21) :=
  c2_ma_includes_new_point 100 (by norm_num)

end ArbJP
